import Mathlib

/-! Verification of the BRBOrswot adapter: a BRBDataType wrapper letting an
ORSWOT CRDT be driven by Byzantine Reliable Broadcast. The adapter itself
(construction, operation builders, the validation contract and apply) is
translated from the source; the inner CRDT (clocks, dots, contexts, its own
validator and apply) is an external collaborator and is modelled from the
spec's interface description. -/

namespace BrbDtOrswot

/-- Modelled from the spec: a Dot is a pair of an actor and a monotonically
increasing counter, identifying one causal event emitted by that actor. -/
structure Dot (A : Type) where
  actor : A
  counter : Nat
deriving DecidableEq

/-- Modelled from the spec: a Clock maps each actor to the highest counter
observed from it (zero when unrecorded), represented by a finite association
list; the order on clocks is pointwise. -/
structure VClock (A : Type) where
  dots : List (A × Nat)
deriving DecidableEq

variable {A M : Type} [DecidableEq A] [DecidableEq M]

/-- Counter recorded in a clock for an actor, zero when unrecorded. -/
def VClock.get (c : VClock A) (a : A) : Nat :=
  match c.dots.find? (fun p => decide (p.1 = a)) with
  | some p => p.2
  | none => 0

/-- Modelled from the spec: the zero clock. -/
def VClock.zero : VClock A := ⟨[]⟩

/-- Modelled from the spec: the next unused dot for an actor, one past the
counter currently recorded for it. -/
def VClock.inc (c : VClock A) (a : A) : Dot A :=
  ⟨a, c.get a + 1⟩

/-- Modelled from the spec: record a dot in a clock when it is ahead of the
counter currently recorded for its actor. -/
def VClock.applyDot (c : VClock A) (d : Dot A) : VClock A :=
  if c.get d.actor < d.counter then
    ⟨(d.actor, d.counter) :: c.dots.filter (fun p => !(decide (p.1 = d.actor)))⟩
  else c

/-- Executable pointwise comparison of clocks: every counter recorded in the
first clock is at most the corresponding counter of the second. -/
def VClock.le (c1 c2 : VClock A) : Bool :=
  c1.dots.all (fun p => decide (c1.get p.1 ≤ c2.get p.1))

/-- Modelled from the spec: the pointwise partial order on clocks. -/
def VClock.Le (c1 c2 : VClock A) : Prop :=
  ∀ a, c1.get a ≤ c2.get a

/-- Modelled from the spec: partial comparison of two clocks under the
pointwise order; incomparable (concurrent) clocks compare to none. -/
def VClock.partialCmp (c1 c2 : VClock A) : Option Ordering :=
  match c1.le c2, c2.le c1 with
  | true, true => some .eq
  | true, false => some .lt
  | false, true => some .gt
  | false, false => none

/-- Modelled from the spec: the inner validator's failure category, reporting
the range of counters an add's dot skipped over (a malformed dot). -/
structure DotRange (A : Type) where
  actor : A
  rangeStart : Nat
  rangeEnd : Nat
deriving DecidableEq

/-- Modelled from the spec: the clock's own operation validator — an incoming
dot may be at most one step ahead of the counter recorded for its actor. -/
def VClock.validateOp (c : VClock A) (d : Dot A) : Except (DotRange A) Unit :=
  let next := c.get d.actor + 1
  if next < d.counter then .error ⟨d.actor, next, d.counter⟩ else .ok ()

/-- Modelled from the spec: drop from a clock every entry dominated by the
other clock. -/
def VClock.resetRemove (c : VClock A) (other : VClock A) : VClock A :=
  ⟨c.dots.filter (fun p => decide (other.get p.1 < p.2))⟩

/-- An ORSWOT operation: Add members witnessed by a dot, or Rm members
justified by a witnessing clock. -/
inductive Op (M A : Type) where
  | Add (dot : Dot A) (members : List M)
  | Rm (clock : VClock A) (members : List M)
deriving DecidableEq

/-- Modelled from the spec: a read context, snapshotting the current clock
alongside the value read. -/
structure ReadCtx (V A : Type) where
  addClock : VClock A
  rmClock : VClock A
  val : V

/-- Modelled from the spec: an add context, an immutable snapshot holding the
fresh dot derived for the adding actor. -/
structure AddCtx (A : Type) where
  clock : VClock A
  dot : Dot A

/-- Modelled from the spec: a remove context snapshotting the entire current
clock. -/
structure RmCtx (A : Type) where
  clock : VClock A

/-- Modelled from the spec: derive an add context from a read context; the
fresh dot is the next unused counter for the actor. -/
def ReadCtx.deriveAddCtx {V : Type} (ctx : ReadCtx V A) (a : A) : AddCtx A :=
  let d := ctx.addClock.inc a
  ⟨ctx.addClock.applyDot d, d⟩

/-- Modelled from the spec: derive a remove context from a read context. -/
def ReadCtx.deriveRmCtx {V : Type} (ctx : ReadCtx V A) : RmCtx A :=
  ⟨ctx.rmClock⟩

/-- Modelled from the spec: the inner CRDT state — an aggregate clock plus an
association of members to the clocks of dots justifying their presence. The
trusting CRDT's deferred-remove buffer is outside the validation layer's
scope (the layer replaces deferral with rejection) and is omitted. -/
structure Orswot (M A : Type) where
  clock : VClock A
  entries : List (M × VClock A)
deriving DecidableEq

/-- Modelled from the spec: the context-only read, snapshotting the clock. -/
def Orswot.readCtx (s : Orswot M A) : ReadCtx Unit A :=
  ⟨s.clock, s.clock, ()⟩

/-- Modelled from the spec: read the current member set with its context. -/
def Orswot.read (s : Orswot M A) : ReadCtx (List M) A :=
  ⟨s.clock, s.clock, s.entries.map Prod.fst⟩

/-- Modelled from the spec: membership query with its context. -/
def Orswot.contains (s : Orswot M A) (m : M) : ReadCtx Bool A :=
  ⟨s.clock, s.clock, s.entries.any (fun p => decide (p.1 = m))⟩

/-- Modelled from the spec: build an Add operation from an add context. -/
def Orswot.add (_s : Orswot M A) (member : M) (ctx : AddCtx A) : Op M A :=
  Op.Add ctx.dot [member]

/-- Modelled from the spec: build an Rm operation from a remove context. -/
def Orswot.rm (_s : Orswot M A) (member : M) (ctx : RmCtx A) : Op M A :=
  Op.Rm ctx.clock [member]

/-- Modelled from the spec: the inner CRDT's own operation validator — an Add
is checked against the aggregate clock, an Rm is structurally unconstrained. -/
def Orswot.validateOp (s : Orswot M A) (op : Op M A) : Except (DotRange A) Unit :=
  match op with
  | .Add d _ => s.clock.validateOp d
  | .Rm _ _ => .ok ()

/-- Modelled from the spec: record the witnessing dot for one added member,
inserting the member when absent. -/
def Orswot.applyAddMember (es : List (M × VClock A)) (d : Dot A) (m : M) :
    List (M × VClock A) :=
  if es.any (fun p => decide (p.1 = m)) then
    es.map (fun p => if p.1 = m then (p.1, p.2.applyDot d) else p)
  else (m, (VClock.zero).applyDot d) :: es

/-- Modelled from the spec: drop, for one removed member, every justifying
dot dominated by the remove's clock, erasing the member when none remain. -/
def Orswot.applyRmMember (es : List (M × VClock A)) (c : VClock A) (m : M) :
    List (M × VClock A) :=
  es.filterMap (fun p =>
    if p.1 = m then
      (let c2 := p.2.resetRemove c
       if c2.dots.isEmpty then none else some (p.1, c2))
    else some p)

/-- Modelled from the spec: the inner CRDT's deterministic apply. An Add
whose dot is not ahead of the aggregate clock has been seen already and is a
no-op (deduplication); otherwise the dot is recorded for each added member
and in the aggregate clock. An Rm prunes the removed members' dots dominated
by its clock. -/
def Orswot.apply (s : Orswot M A) (op : Op M A) : Orswot M A :=
  match op with
  | .Add d members =>
    if d.counter ≤ s.clock.get d.actor then s
    else
      { clock := s.clock.applyDot d,
        entries := members.foldl (fun es m => Orswot.applyAddMember es d m) s.entries }
  | .Rm c members =>
    { s with entries := members.foldl (fun es m => Orswot.applyRmMember es c m) s.entries }

/-- Modelled from the spec: the empty inner state with the zero clock. -/
def Orswot.empty : Orswot M A :=
  ⟨VClock.zero, []⟩

/-- BRB wrapper for an Orswot CRDT: the replica's actor identity plus the
inner CRDT state. -/
structure BRBOrswot (A M : Type) where
  actor : A
  orswot : Orswot M A
deriving DecidableEq

/-- Generates an Orswot Add operation (but does not apply it). -/
def BRBOrswot.add (s : BRBOrswot A M) (member : M) : Op M A :=
  let addCtx := (s.orswot.readCtx).deriveAddCtx s.actor
  s.orswot.add member addCtx

/-- Generates an Orswot Rm operation (but does not apply it). -/
def BRBOrswot.rm (s : BRBOrswot A M) (member : M) : Op M A :=
  let rmCtx := (s.orswot.readCtx).deriveRmCtx
  s.orswot.rm member rmCtx

/-- Check if the set contains a member. -/
def BRBOrswot.contains (s : BRBOrswot A M) (member : M) : Bool :=
  (s.orswot.contains member).val

/-- Read from the underlying orswot. -/
def BRBOrswot.read (s : BRBOrswot A M) : List M :=
  (s.orswot.read).val

/-- The adapter's validation errors: authorship mismatch, multi-element
remove, causally unseen remove, or a wrapped inner failure. -/
inductive ValidationError (E : Type) where
  | SourceDoesNotMatchOp
  | RemoveOnlySupportedForOneMember
  | RemovingDataWeHaventSeenYet
  | Orswot (e : E)
deriving DecidableEq

/-- Constructs the adapter bound to an actor, with the empty inner state. -/
def BRBOrswot.new (actor : A) : BRBOrswot A M :=
  ⟨actor, Orswot.empty⟩

/-- The causal gate condition of validate: true when the remove's clock
compares to the local clock as incomparable or strictly greater. -/
def causallyUnseen (c l : VClock A) : Bool :=
  match c.partialCmp l with
  | none => true
  | some .gt => true
  | _ => false

/-- The validation contract: inner structural validity first, then
authorship for an Add, or the single-member and causal-completeness gates
for an Rm, short-circuiting on the first failure. -/
def BRBOrswot.validate (s : BRBOrswot A M) (source : A) (op : Op M A) :
    Except (ValidationError (DotRange A)) Unit :=
  match s.orswot.validateOp op with
  | .error e => .error (.Orswot e)
  | .ok _ =>
    match op with
    | .Add d _ =>
      if d.actor ≠ source then .error .SourceDoesNotMatchOp
      else .ok ()
    | .Rm c members =>
      if members.length ≠ 1 then .error .RemoveOnlySupportedForOneMember
      else if causallyUnseen c s.orswot.clock then
        .error .RemovingDataWeHaventSeenYet
      else .ok ()

/-- Applies an operation to the underlying orswot. -/
def BRBOrswot.apply (s : BRBOrswot A M) (op : Op M A) : BRBOrswot A M :=
  { s with orswot := s.orswot.apply op }

/-- The executable clock comparison decides the spec's pointwise order. -/
theorem VClock.le_iff (c1 c2 : VClock A) : c1.le c2 = true ↔ c1.Le c2 := by
  rw [VClock.le, List.all_eq_true]
  constructor
  · intro h a
    cases hf : c1.dots.find? (fun q => decide (q.1 = a)) with
    | none =>
      have hz : c1.get a = 0 := by rw [VClock.get, hf]
      rw [hz]; exact Nat.zero_le _
    | some p =>
      have hpa : p.1 = a := by simpa using List.find?_some hf
      have hle : c1.get p.1 ≤ c2.get p.1 := by
        simpa using h p (List.mem_of_find?_eq_some hf)
      rw [hpa] at hle
      exact hle
  · intro h p _
    exact decide_eq_true (h p.1)

/-- The causal gate condition is true exactly when the remove's clock is not
pointwise below the local clock. -/
theorem causallyUnseen_iff (c l : VClock A) : causallyUnseen c l = true ↔ ¬ c.Le l := by
  rw [causallyUnseen]
  cases h1 : c.le l with
  | true =>
    have hle := (VClock.le_iff c l).mp h1
    cases h2 : l.le c <;> simp [VClock.partialCmp, h1, h2, hle]
  | false =>
    have hn : ¬ c.Le l := fun hc => by
      rw [(VClock.le_iff c l).mpr hc] at h1
      exact Bool.noConfusion h1
    cases h2 : l.le c <;> simp [VClock.partialCmp, h1, h2, hn]

/-- After a dot is recorded in a clock, the counter recorded for the dot's
actor is at least the dot's counter. -/
theorem VClock.get_applyDot_self (c : VClock A) (d : Dot A) :
    d.counter ≤ (c.applyDot d).get d.actor := by
  rw [VClock.applyDot]
  by_cases h : c.get d.actor < d.counter
  · rw [if_pos h]
    show d.counter ≤ VClock.get ⟨_ :: _⟩ d.actor
    rw [VClock.get, List.find?_cons_of_pos _ (by simp)]
  · rw [if_neg h]
    omega

/-- Applying the same Add twice to the inner state equals applying it once:
the second application is deduplicated by the aggregate clock. -/
theorem Orswot.apply_add_idem (o : Orswot M A) (d : Dot A) (ms : List M) :
    (o.apply (Op.Add d ms)).apply (Op.Add d ms) = o.apply (Op.Add d ms) := by
  by_cases h : d.counter ≤ o.clock.get d.actor
  · simp [Orswot.apply, h]
  · have h2 : d.counter ≤ (o.clock.applyDot d).get d.actor :=
      VClock.get_applyDot_self o.clock d
    simp [Orswot.apply, h, h2]

/-- C1: for an Rm over a single member, validate fails with the causally
unseen kind exactly when the remove's clock is not pointwise below the local
clock — covering the incomparable and the strictly greater case alike — and
the causal-completeness check passes (validate accepts) whenever the
remove's clock is pointwise below the local clock. -/
theorem validate_rm_causal_gate (s : BRBOrswot A M) (source : A) (c : VClock A) (m : M) :
    (s.validate source (Op.Rm c [m]) = .error .RemovingDataWeHaventSeenYet
      ↔ ¬ c.Le s.orswot.clock)
    ∧ (c.Le s.orswot.clock → s.validate source (Op.Rm c [m]) = .ok ()) := by
  have hgate := causallyUnseen_iff c s.orswot.clock
  by_cases h : causallyUnseen c s.orswot.clock = true
  · have hnle : ¬ c.Le s.orswot.clock := hgate.mp h
    refine ⟨?_, fun hle => absurd hle hnle⟩
    simp [BRBOrswot.validate, Orswot.validateOp, h, hnle]
  · have hb : causallyUnseen c s.orswot.clock = false := by
      cases hc : causallyUnseen c s.orswot.clock with
      | true => exact absurd hc h
      | false => rfl
    have hle : c.Le s.orswot.clock := by
      by_contra hn
      exact h (hgate.mpr hn)
    constructor
    · simp [BRBOrswot.validate, Orswot.validateOp, hb, hle]
    · intro _
      simp [BRBOrswot.validate, Orswot.validateOp, hb]

/-- The causal gate theorem at a concrete input: a fresh replica accepts a
single-member remove justified by the zero clock. -/
theorem validate_rm_causal_gate_witness :
    (BRBOrswot.new 0 : BRBOrswot Nat Nat).validate 1 (Op.Rm ⟨[]⟩ [7]) = .ok () :=
  (validate_rm_causal_gate (BRBOrswot.new 0) 1 ⟨[]⟩ 7).2 (fun _ => Nat.zero_le _)

/-- C2: when the inner CRDT validation succeeds, validate on an Add fails
with the authorship-mismatch kind exactly when the dot's actor differs from
the claimed source, and accepts when they coincide. -/
theorem validate_add_authorship (s : BRBOrswot A M) (source : A) (d : Dot A) (ms : List M)
    (hinner : s.orswot.validateOp (Op.Add d ms) = .ok ()) :
    (d.actor ≠ source → s.validate source (Op.Add d ms) = .error .SourceDoesNotMatchOp)
    ∧ (d.actor = source → s.validate source (Op.Add d ms) = .ok ()) := by
  constructor
  · intro hne
    simp [BRBOrswot.validate, hinner, hne]
  · intro heq
    simp [BRBOrswot.validate, hinner, heq]

/-- The authorship theorem at a concrete input: a fresh replica rejects an
Add whose dot is attributed to an actor other than the claimed source. -/
theorem validate_add_authorship_witness :
    (BRBOrswot.new 0 : BRBOrswot Nat Nat).validate 2 (Op.Add ⟨1, 1⟩ [5])
      = .error .SourceDoesNotMatchOp :=
  (validate_add_authorship (BRBOrswot.new 0) 2 ⟨1, 1⟩ [5] rfl).1 (by decide)

/-- C3: validate fails with the multi-element kind on every Rm whose member
list has more than one element, for every source and clock; an Rm with
exactly one member passes the single-element check, so its outcome is never
the multi-element kind. -/
theorem validate_rm_single_member (s : BRBOrswot A M) (source : A) (c : VClock A)
    (ms : List M) :
    (1 < ms.length →
      s.validate source (Op.Rm c ms) = .error .RemoveOnlySupportedForOneMember)
    ∧ (ms.length = 1 →
      s.validate source (Op.Rm c ms) ≠ .error .RemoveOnlySupportedForOneMember) := by
  constructor
  · intro h
    have hne : ms.length ≠ 1 := by omega
    simp [BRBOrswot.validate, Orswot.validateOp, hne]
  · intro h
    simp [BRBOrswot.validate, Orswot.validateOp, h]
    cases hg : causallyUnseen c s.orswot.clock <;> simp [hg]

/-- The single-member gate theorem at a concrete input: a two-member remove
is rejected with the multi-element kind. -/
theorem validate_rm_single_member_witness :
    (BRBOrswot.new 0 : BRBOrswot Nat Nat).validate 0 (Op.Rm ⟨[]⟩ [1, 2])
      = .error .RemoveOnlySupportedForOneMember :=
  (validate_rm_single_member (BRBOrswot.new 0) 0 ⟨[]⟩ [1, 2]).1 (by decide)

/-- C4: validate short-circuits in the fixed order — an op rejected by the
inner CRDT validator yields the wrapped inner error regardless of the later
checks, and an Rm with both more than one member and a causally unseen clock
yields the multi-element kind, not the causally unseen kind. -/
theorem validate_check_order (s : BRBOrswot A M) (source : A) :
    (∀ (op : Op M A) (e : DotRange A), s.orswot.validateOp op = .error e →
      s.validate source op = .error (.Orswot e))
    ∧ (∀ (c : VClock A) (ms : List M), 1 < ms.length → ¬ c.Le s.orswot.clock →
      s.validate source (Op.Rm c ms) = .error .RemoveOnlySupportedForOneMember) := by
  constructor
  · intro op e he
    simp [BRBOrswot.validate, he]
  · intro c ms h _
    have hne : ms.length ≠ 1 := by omega
    simp [BRBOrswot.validate, Orswot.validateOp, hne]

/-- The check-order theorem at a concrete input: a two-member remove whose
clock is strictly ahead of a fresh replica's zero clock is rejected with the
multi-element kind, not the causally unseen kind. -/
theorem validate_check_order_witness :
    (BRBOrswot.new 0 : BRBOrswot Nat Nat).validate 0 (Op.Rm ⟨[(1, 5)]⟩ [1, 2])
      = .error .RemoveOnlySupportedForOneMember := by
  refine (validate_check_order (BRBOrswot.new 0) 0).2 ⟨[(1, 5)]⟩ [1, 2] (by decide) ?_
  intro h
  exact absurd (h 1) (by decide)

/-- C5: validate is a pure function of the CRDT state, the claimed source
and the op — in this embedding it takes the state by value, returns only a
verdict and mutates nothing, and its decision does not depend on the
adapter's own actor identity: two adapters holding equal CRDT state reach
the same accept/reject decision on the same (source, op). -/
theorem validate_deterministic (a1 a2 : A) (o : Orswot M A) (source : A) (op : Op M A) :
    BRBOrswot.validate ⟨a1, o⟩ source op = BRBOrswot.validate ⟨a2, o⟩ source op := rfl

/-- C6: rm returns an Rm whose clock is the snapshot of the adapter's entire
current clock and whose member list is exactly the singleton of the given
member; likewise add returns an Add carrying the next dot for the local
actor — both are pure queries computed from the state without changing it. -/
theorem rm_snapshots_whole_clock (s : BRBOrswot A M) (m : M) :
    s.rm m = Op.Rm s.orswot.clock [m]
    ∧ s.add m = Op.Add (s.orswot.clock.inc s.actor) [m] :=
  ⟨rfl, rfl⟩

/-- C7: new constructs an adapter bound to the given actor, whose read is
the empty collection, which contains no member, and whose underlying clock
is the zero clock. -/
theorem new_empty (a : A) :
    (BRBOrswot.new a : BRBOrswot A M).actor = a
    ∧ (BRBOrswot.new a : BRBOrswot A M).read = []
    ∧ (∀ m : M, (BRBOrswot.new a : BRBOrswot A M).contains m = false)
    ∧ (BRBOrswot.new a : BRBOrswot A M).orswot.clock = VClock.zero :=
  ⟨rfl, rfl, fun _ => rfl, rfl⟩

/-- C8: re-delivering and re-applying an already-applied Add leaves read
unchanged — the second application is deduplicated by the aggregate clock,
so the whole state, and with it the observable member set, is unchanged. -/
theorem apply_add_idempotent (s : BRBOrswot A M) (d : Dot A) (ms : List M) :
    ((s.apply (Op.Add d ms)).apply (Op.Add d ms)).read = (s.apply (Op.Add d ms)).read := by
  have h := Orswot.apply_add_idem s.orswot d ms
  simp [BRBOrswot.apply, BRBOrswot.read, h]

/-- C9: an Rm with an empty member list fails the single-element check with
the multi-element kind, for every source and every clock. -/
theorem validate_rm_empty_members (s : BRBOrswot A M) (source : A) (c : VClock A) :
    s.validate source (Op.Rm c []) = .error .RemoveOnlySupportedForOneMember := by
  simp [BRBOrswot.validate, Orswot.validateOp]

/-- C10: the validation of an Rm is independent of the claimed source — no
authorship check applies to removes, so any two claimed sources yield the
same verdict. -/
theorem validate_rm_source_independent (s : BRBOrswot A M) (s1 s2 : A) (c : VClock A)
    (ms : List M) :
    s.validate s1 (Op.Rm c ms) = s.validate s2 (Op.Rm c ms) := rfl

end BrbDtOrswot
